import Mathlib

/-!
Shallow embedding of the ESP32-C3 boot runtime
(`src/runtime/runtime_esp32c3.go`): the boot entry `main`, the `.bss`
zero-init loop, the tick counter `ticks`, the nanosecond/tick conversions,
the busy-wait `sleepTicks` and the terminal `abort` loop.

The boot entry is straight-line register-write code, so it is embedded as
the trace of register writes, word stores and calls it performs.  The
`.bss` loop is embedded as a function on a word-addressed memory.  The
timer is embedded as a counter/latch state with the latch-then-read
protocol of `ticks`.
-/

set_option maxHeartbeats 1000000

namespace ESP32C3

/-- Identifiers for every memory-mapped register the boot entry touches,
plus the timer-group watchdog write-protect register `TIMG0_WDTWPROTECT`,
which exists in the hardware but is never written by this code. -/
inductive Reg where
  | TIMG0_WDTCONFIG0
  | TIMG0_WDTWPROTECT
  | RTC_WDTWPROTECT
  | RTC_WDTCONFIG0
  | RTC_SWD_WPROTECT
  | RTC_SWD_CONF
  | SYSTEM_SYSCLK_CONF
  | SYSTEM_CPU_PER_CONF
  | TIMG0_T0CONFIG
  | TIMG0_T0LOADLO
  | TIMG0_T0LOADHI
  | TIMG0_T0LOAD
  | TIMG0_T0UPDATE
deriving DecidableEq, Repr

/-- Observable actions of the boot entry: a 32-bit register write, a zeroing
word store into memory, the single call into the runtime entry point
`run()`, and the wait-for-interrupt instruction issued by `abort`. -/
inductive Event where
  | regWrite (r : Reg) (v : Nat)
  | memZero (addr : Nat)
  | callRun
  | wfi
deriving DecidableEq, Repr

/-- Modelled from the spec: bit position of the system-clock source-select
field, a constant of the device support package (`device/esp`), which is
not under `src/`. Its numeric value does not affect any claim. -/
def SYSTEM_SYSCLK_CONF_SOC_CLK_SEL_Pos : Nat := 10

/-- Modelled from the spec: the CPU wait-mode force-on bit of the device
support package (`device/esp`), not under `src/`. -/
def SYSTEM_CPU_PER_CONF_REG_CPU_WAIT_MODE_FORCE_ON : Nat := 8

/-- Modelled from the spec: the PLL frequency select bit of the device
support package (`device/esp`), not under `src/`. -/
def SYSTEM_CPU_PER_CONF_REG_PLL_FREQ_SEL : Nat := 4

/-- Modelled from the spec: bit position of the CPU period select field,
from the device support package (`device/esp`), not under `src/`. -/
def SYSTEM_CPU_PER_CONF_REG_CPUPERIOD_SEL_Pos : Nat := 0

/-- Modelled from the spec: the super-watchdog disable bit of the device
support package (`device/esp`), not under `src/`. -/
def RTC_CNTL_RTC_SWD_CONF_SWD_DISABLE : Nat := 1 <<< 30

/-- Modelled from the spec: the timer-enable bit of `T0CONFIG`, from the
device support package (`device/esp`), not under `src/`. -/
def TIMG_T0CONFIG_REG_T0_EN : Nat := 1 <<< 31

/-- Modelled from the spec: the count-up bit of `T0CONFIG`, from the device
support package (`device/esp`), not under `src/`. -/
def TIMG_T0CONFIG_REG_T0_INCREASE : Nat := 1 <<< 30

/-- Modelled from the spec: bit position of the prescaler divider field of
`T0CONFIG`, from the device support package (`device/esp`), not under
`src/`. -/
def TIMG_T0CONFIG_REG_T0_DIVIDER_Pos : Nat := 13

/-- Value `main` writes to `SYSTEM.CPU_PER_CONF_REG`: wait-mode force-on,
PLL frequency select, and CPU period selector 1. -/
def cpuPerConfVal : Nat :=
  SYSTEM_CPU_PER_CONF_REG_CPU_WAIT_MODE_FORCE_ON |||
  SYSTEM_CPU_PER_CONF_REG_PLL_FREQ_SEL |||
  (1 <<< SYSTEM_CPU_PER_CONF_REG_CPUPERIOD_SEL_Pos)

/-- Value `main` writes to `TIMG0.T0CONFIG_REG`: enable, count up, and
prescaler divider 2. -/
def t0ConfigVal : Nat :=
  TIMG_T0CONFIG_REG_T0_EN ||| TIMG_T0CONFIG_REG_T0_INCREASE |||
  (2 <<< TIMG_T0CONFIG_REG_T0_DIVIDER_Pos)

/-- The seven register writes `main` performs before the `.bss` loop:
watchdog disabling (five writes) followed by clock configuration
(two writes), in source order. -/
def bootWrites : List Event :=
  [Event.regWrite Reg.TIMG0_WDTCONFIG0 0,
   Event.regWrite Reg.RTC_WDTWPROTECT 0x50D83AA1,
   Event.regWrite Reg.RTC_WDTCONFIG0 0,
   Event.regWrite Reg.RTC_SWD_WPROTECT 0x8F1D312A,
   Event.regWrite Reg.RTC_SWD_CONF RTC_CNTL_RTC_SWD_CONF_SWD_DISABLE,
   Event.regWrite Reg.SYSTEM_SYSCLK_CONF (1 <<< SYSTEM_SYSCLK_CONF_SOC_CLK_SEL_Pos),
   Event.regWrite Reg.SYSTEM_CPU_PER_CONF cpuPerConfVal]

/-- Store trace of the `.bss` zero loop: `n` word stores starting at
`sbss`, each 4 bytes after the previous one. -/
def bssTrace (sbss : Nat) : Nat → List Event
  | 0 => []
  | n + 1 => Event.memZero sbss :: bssTrace (sbss + 4) n

/-- The writes `main` performs after the `.bss` loop: timer 0
configuration, the three load writes, then the call into `run()`. -/
def timerSetup : List Event :=
  [Event.regWrite Reg.TIMG0_T0CONFIG t0ConfigVal,
   Event.regWrite Reg.TIMG0_T0LOADLO 0,
   Event.regWrite Reg.TIMG0_T0LOADHI 0,
   Event.regWrite Reg.TIMG0_T0LOAD 0,
   Event.callRun]

/-- Full trace of `main` up to and including the call into `run()`, where
`n = (ebss - sbss) / 4` is the number of `.bss` words. -/
def mainTrace (sbss n : Nat) : List Event :=
  bootWrites ++ bssTrace sbss n ++ timerSetup

/-- Registers belonging to the watchdog-disable unit. -/
def wdRegs : List Reg :=
  [Reg.TIMG0_WDTCONFIG0, Reg.TIMG0_WDTWPROTECT, Reg.RTC_WDTWPROTECT,
   Reg.RTC_WDTCONFIG0, Reg.RTC_SWD_WPROTECT, Reg.RTC_SWD_CONF]

/-- Registers belonging to the clock-configuration unit. -/
def clockRegs : List Reg :=
  [Reg.SYSTEM_SYSCLK_CONF, Reg.SYSTEM_CPU_PER_CONF]

/-- Event classifier: a write to a watchdog register. -/
def isWatchdogWrite : Event → Bool
  | Event.regWrite r _ => wdRegs.contains r
  | _ => false

/-- Event classifier: a write to a clock-configuration register. -/
def isClockWrite : Event → Bool
  | Event.regWrite r _ => clockRegs.contains r
  | _ => false

/-- Event classifier: a zeroing word store of the `.bss` loop. -/
def isMemZero : Event → Bool
  | Event.memZero _ => true
  | _ => false

/-- Event classifier: the write enabling timer 0 (the `T0CONFIG` write). -/
def isTimerEnableWrite : Event → Bool
  | Event.regWrite Reg.TIMG0_T0CONFIG _ => true
  | _ => false

/-- Event classifier: a write to the given register. -/
def writesReg (r : Reg) : Event → Bool
  | Event.regWrite s _ => decide (s = r)
  | _ => false

/-- Protocol predicate of the spec: every write to the configuration
register `conf` in the trace is immediately preceded by a write of the
magic value to the write-protect register `wp`. -/
def unlockImmediatelyBefore (t : List Event) (wp conf : Reg) (magic : Nat) : Prop :=
  ∀ i v, t[i]? = some (Event.regWrite conf v) →
    0 < i ∧ t[i - 1]? = some (Event.regWrite wp magic)

/-- Word-addressed memory: each byte address holds the 32-bit word stored
at that address. -/
def Mem : Type := Nat → Nat

/-- A 32-bit word store at byte address `addr`. -/
def writeWord (m : Mem) (addr v : Nat) : Mem :=
  fun a => if a = addr then v else m a

/-- Effect of the `.bss` zero loop on memory: `n` word stores of zero,
starting at `sbss` and stepping by 4 bytes. -/
def zeroWords (m : Mem) (sbss : Nat) : Nat → Mem
  | 0 => m
  | n + 1 => zeroWords (writeWord m sbss 0) (sbss + 4) n

/-- The `.bss` zero loop of `main`, between the linker bounds `sbss` and
`ebss`: it zeroes `(ebss - sbss) / 4` words starting at `sbss`. -/
def zeroBss (m : Mem) (sbss ebss : Nat) : Mem :=
  zeroWords m sbss ((ebss - sbss) / 4)

/-- Fuelled form of the source loop `for ptr != ebss`, one fuel per
iteration: returns `none` when the loop does not reach `ptr = ebss` within
the given number of iterations.  Used to state termination. -/
def zeroLoop (m : Mem) (ptr ebss : Nat) : Nat → Option Mem
  | 0 => if ptr = ebss then some m else none
  | fuel + 1 =>
    if ptr = ebss then some m
    else zeroLoop (writeWord m ptr 0) (ptr + 4) ebss fuel

/-- Conversion `nanosecondsToTicks`: Go `ns / 25` with `int64` truncating
division (toward zero), embedded as `Int.tdiv`. -/
def nanosecondsToTicks (ns : Int) : Int := Int.tdiv ns 25

/-- Conversion `ticksToNanoseconds`: Go `ticks * 25`. -/
def ticksToNanoseconds (ticks : Int) : Int := ticks * 25

/-- Hardware timer 0 state: the free-running 64-bit counter and the
latched snapshot exposed through the `T0LO`/`T0HI` registers. -/
structure TimerState where
  counter : Nat
  latched : Nat
deriving DecidableEq, Repr

/-- Observable actions of one `ticks()` call on the timer registers. -/
inductive TimerEvent where
  | writeUpdate (v : Nat)
  | readLo (v : Nat)
  | readHi (v : Nat)
deriving DecidableEq, Repr

/-- The `ticks()` function: write any value (the code writes 0) to
`T0UPDATE_REG`, which latches the 64-bit counter; then read `T0LO_REG` and
`T0HI_REG` and combine them as `low ||| (high <<< 32)`.  Returns the
value, the new timer state, and the register-access trace. -/
def ticks (s : TimerState) : Nat × TimerState × List TimerEvent :=
  let s1 : TimerState := { s with latched := s.counter % 2 ^ 64 }
  let lo := s1.latched % 2 ^ 32
  let hi := s1.latched / 2 ^ 32
  (lo ||| (hi <<< 32), s1,
   [TimerEvent.writeUpdate 0, TimerEvent.readLo lo, TimerEvent.readHi hi])

/-- The hardware counter advancing by `k` ticks between software actions. -/
def advanceCounter (s : TimerState) (k : Nat) : TimerState :=
  { s with counter := s.counter + k }

/-- Busy-wait loop of `sleepTicks`: poll the counter, and while it is
below the deadline let it advance by `step` per iteration.  Returns the
final polled counter value and the number of loop iterations.  The
simulated counter advances by a positive `step` each time the loop spins,
which is what makes the loop terminate. -/
def sleepLoop (sleepUntil step : Int) (hstep : 0 < step) (c : Int) : Int × Nat :=
  if h : c < sleepUntil then
    let r := sleepLoop sleepUntil step hstep (c + step)
    (r.1, r.2 + 1)
  else (c, 0)
termination_by (sleepUntil - c).toNat
decreasing_by omega

/-- The `sleepTicks(d)` function over the simulated counter: read the
counter (value `c0`), compute `sleepUntil := c0 + d`, then busy-wait while
the polled counter is below `sleepUntil`. -/
def sleepTicks (c0 d step : Int) (hstep : 0 < step) : Int × Nat :=
  sleepLoop (c0 + d) step hstep c0

/-- States of the boot entry: executing the bring-up sequence, inside
`run()`, or in the terminal `abort` loop. -/
inductive MState where
  | booting
  | running
  | halted
deriving DecidableEq, Repr

/-- One step of the boot state machine with its emitted events: the
bring-up sequence emits the whole `main` trace and calls `run()`; if
`run()` returns, control falls into `abort()`; the `abort` loop issues one
wait-for-interrupt instruction per iteration and stays put. -/
def sysStep (sbss n : Nat) : MState → MState × List Event
  | MState.booting => (MState.running, mainTrace sbss n)
  | MState.running => (MState.halted, [])
  | MState.halted => (MState.halted, [Event.wfi])

/-- Run `k` steps of the boot state machine, collecting emitted events. -/
def sysRun (sbss n : Nat) (s : MState) : Nat → MState × List Event
  | 0 => (s, [])
  | k + 1 =>
    let p := sysStep sbss n s
    let r := sysRun sbss n p.1 k
    (r.1, p.2 ++ r.2)

/-- Example memory holding 7 in every word, used for concrete witnesses. -/
def memEx : Mem := fun _ => 7

/-- Addresses not of the form `sbss + 4 * k` with `k < n` are untouched by
the zero loop. -/
theorem zeroWords_out (n : Nat) : ∀ (m : Mem) (sbss a : Nat),
    (∀ k, k < n → a ≠ sbss + 4 * k) → zeroWords m sbss n a = m a := by
  induction n with
  | zero => intro m s a _; rfl
  | succ n ih =>
    intro m s a h
    simp only [zeroWords]
    rw [ih (writeWord m s 0) (s + 4) a ?_]
    · have hne : a ≠ s := by have := h 0 (by omega); omega
      simp only [writeWord, if_neg hne]
    · intro k hk
      have := h (k + 1) (by omega)
      omega

/-- Every address `sbss + 4 * k` with `k < n` reads zero after the loop. -/
theorem zeroWords_in (n : Nat) : ∀ (m : Mem) (sbss k : Nat),
    k < n → zeroWords m sbss n (sbss + 4 * k) = 0 := by
  induction n with
  | zero => intro m s k h; omega
  | succ n ih =>
    intro m s k hk
    simp only [zeroWords]
    cases k with
    | zero =>
      rw [zeroWords_out n (writeWord m s 0) (s + 4) (s + 4 * 0) ?_]
      · simp only [writeWord, if_pos (by omega : s + 4 * 0 = s)]
      · intro j hj; omega
    | succ k =>
      have harith : s + 4 * (k + 1) = (s + 4) + 4 * k := by omega
      rw [harith]
      exact ih (writeWord m s 0) (s + 4) k (by omega)

/-- With fuel `n` where `ebss - sbss = 4 * n`, the source loop
`for ptr != ebss` reaches `ptr = ebss` and computes `zeroWords`. -/
theorem zeroLoop_reaches (n : Nat) : ∀ (m : Mem) (sbss ebss : Nat),
    sbss ≤ ebss → ebss - sbss = 4 * n →
    zeroLoop m sbss ebss n = some (zeroWords m sbss n) := by
  induction n with
  | zero =>
    intro m s e h1 h2
    have he : s = e := by omega
    simp only [zeroLoop, zeroWords, he, if_pos]
  | succ n ih =>
    intro m s e h1 h2
    have hne : s ≠ e := by omega
    simp only [zeroLoop, zeroWords, if_neg hne]
    exact ih (writeWord m s 0) (s + 4) e (by omega) (by omega)

/-- C2: for word-aligned `sbss ≤ ebss` with `ebss - sbss` a multiple of 4,
after the zero-init loop every 4-byte word in `[sbss, ebss)` reads zero,
and every word outside `[sbss, ebss)` holds its previous value. -/
theorem zeroBss_correct (m : Mem) (sbss ebss : Nat)
    (h1 : sbss ≤ ebss) (h2 : 4 ∣ ebss - sbss) :
    (∀ a, sbss ≤ a → a < ebss → 4 ∣ a - sbss → zeroBss m sbss ebss a = 0) ∧
    (∀ a, a < sbss ∨ ebss ≤ a → zeroBss m sbss ebss a = m a) := by
  obtain ⟨n, hn⟩ := h2
  have hdiv : (ebss - sbss) / 4 = n := by omega
  constructor
  · intro a ha1 ha2 ha3
    obtain ⟨k, hk⟩ := ha3
    have hak : a = sbss + 4 * k := by omega
    rw [zeroBss, hdiv, hak]
    exact zeroWords_in n m sbss k (by omega)
  · intro a ha
    rw [zeroBss, hdiv]
    apply zeroWords_out
    intro k hk
    omega

/-- C2 witness: on the region `[8, 16)` of the all-7 memory, address 12 is
zeroed and address 4 keeps its old value 7. -/
theorem zeroBss_correct_witness :
    ((8 : Nat) ≤ 16 ∧ 4 ∣ 16 - 8) ∧
    zeroBss memEx 8 16 12 = 0 ∧ zeroBss memEx 8 16 4 = 7 :=
  ⟨⟨by decide, by decide⟩,
   (zeroBss_correct memEx 8 16 (by decide) (by decide)).1 12 (by decide) (by decide)
     (by decide),
   (zeroBss_correct memEx 8 16 (by decide) (by decide)).2 4 (Or.inl (by decide))⟩

/-- C3: for any region with `sbss ≤ ebss` and `ebss - sbss` a multiple of
4, the zero-init loop terminates in exactly `(ebss - sbss) / 4`
iterations; the empty region performs zero iterations and is a no-op; and
running the loop a second time leaves memory unchanged (idempotence). -/
theorem zeroBss_terminates_idempotent (m : Mem) (sbss ebss : Nat)
    (h1 : sbss ≤ ebss) (h2 : 4 ∣ ebss - sbss) :
    zeroLoop m sbss ebss ((ebss - sbss) / 4) = some (zeroBss m sbss ebss) ∧
    (sbss = ebss → zeroLoop m sbss ebss 0 = some m ∧ ∀ a, zeroBss m sbss ebss a = m a) ∧
    (∀ a, zeroBss (zeroBss m sbss ebss) sbss ebss a = zeroBss m sbss ebss a) := by
  obtain ⟨n, hn⟩ := h2
  have hdiv : (ebss - sbss) / 4 = n := by omega
  refine ⟨?_, ?_, ?_⟩
  · rw [zeroBss, hdiv]
    exact zeroLoop_reaches n m sbss ebss h1 (by omega)
  · intro he
    constructor
    · simp only [zeroLoop, he, if_pos]
    · intro a
      have h0 : (ebss - sbss) / 4 = 0 := by omega
      rw [zeroBss, h0]
      rfl
  · intro a
    by_cases hk : ∃ k, k < n ∧ a = sbss + 4 * k
    · obtain ⟨k, hkn, rfl⟩ := hk
      rw [zeroBss, zeroBss, hdiv]
      rw [zeroWords_in n _ sbss k hkn, zeroWords_in n _ sbss k hkn]
    · push_neg at hk
      rw [zeroBss, zeroBss, hdiv]
      rw [zeroWords_out n _ sbss a (fun k h => hk k h)]

/-- C3 witness: on the region `[8, 16)` of the all-7 memory, the loop
terminates with the zeroed memory, and a second run changes nothing at
address 12. -/
theorem zeroBss_terminates_idempotent_witness :
    ((8 : Nat) ≤ 16 ∧ 4 ∣ 16 - 8) ∧
    zeroLoop memEx 8 16 ((16 - 8) / 4) = some (zeroBss memEx 8 16) ∧
    zeroBss (zeroBss memEx 8 16) 8 16 12 = zeroBss memEx 8 16 12 :=
  ⟨⟨by decide, by decide⟩,
   (zeroBss_terminates_idempotent memEx 8 16 (by decide) (by decide)).1,
   (zeroBss_terminates_idempotent memEx 8 16 (by decide) (by decide)).2.2 12⟩

/-- C4: for every non-negative duration `d`, converting to ticks and back
yields `d` rounded down to the nearest multiple of the 25 ns tick period:
it equals `(d / 25) * 25`, is at most `d`, is within 25 ns below `d`, and
is a multiple of 25. -/
theorem conversion_roundtrip (d : Int) (h : 0 ≤ d) :
    ticksToNanoseconds (nanosecondsToTicks d) = d / 25 * 25 ∧
    ticksToNanoseconds (nanosecondsToTicks d) ≤ d ∧
    d < ticksToNanoseconds (nanosecondsToTicks d) + 25 ∧
    (25 : Int) ∣ ticksToNanoseconds (nanosecondsToTicks d) := by
  have he : Int.tdiv d 25 = d / 25 := Int.tdiv_eq_ediv h (by norm_num)
  unfold ticksToNanoseconds nanosecondsToTicks
  rw [he]
  refine ⟨rfl, ?_, ?_, ⟨d / 25, Int.mul_comm _ _⟩⟩ <;> omega

/-- C4 witness: 30 ns rounds down to 25 ns through the conversion pair. -/
theorem conversion_roundtrip_witness :
    (0 : Int) ≤ 30 ∧ ticksToNanoseconds (nanosecondsToTicks 30) = 30 / 25 * 25 :=
  ⟨by decide, (conversion_roundtrip 30 (by decide)).1⟩

/-- Recombining the low and high 32-bit halves with `lor`/`shiftLeft`
recovers the 64-bit value. -/
theorem lo_hi_recombine (m : Nat) : (m % 2 ^ 32) ||| ((m / 2 ^ 32) <<< 32) = m := by
  rw [Nat.shiftLeft_eq, Nat.lor_comm, Nat.mul_comm (m / 2 ^ 32) (2 ^ 32),
    ← Nat.mul_add_lt_is_or (Nat.mod_lt m (Nat.two_pow_pos 32)) (m / 2 ^ 32)]
  omega

/-- C5: a `ticks()` call first writes the update/latch register, then
reads the low and high halves, and returns exactly `low ||| (high <<< 32)`;
for a counter below `2 ^ 64` this equals the counter value at the latch
write (no torn combination), and a later call over an advanced counter
never returns a smaller value. -/
theorem ticks_protocol (c l k : Nat) (h : c + k < 2 ^ 64) :
    (ticks ⟨c, l⟩).2.2 =
      [TimerEvent.writeUpdate 0, TimerEvent.readLo (c % 2 ^ 32),
       TimerEvent.readHi (c / 2 ^ 32)] ∧
    (ticks ⟨c, l⟩).1 = (c % 2 ^ 32) ||| ((c / 2 ^ 32) <<< 32) ∧
    (ticks ⟨c, l⟩).1 = c ∧
    (ticks (advanceCounter (ticks ⟨c, l⟩).2.1 k)).1 = c + k ∧
    (ticks ⟨c, l⟩).1 ≤ (ticks (advanceCounter (ticks ⟨c, l⟩).2.1 k)).1 := by
  have hc : c % 2 ^ 64 = c := Nat.mod_eq_of_lt (by omega)
  have hck : (c + k) % 2 ^ 64 = c + k := Nat.mod_eq_of_lt h
  simp only [ticks, advanceCounter, hc, hck]
  refine ⟨trivial, trivial, lo_hi_recombine c, lo_hi_recombine (c + k), ?_⟩
  rw [lo_hi_recombine c, lo_hi_recombine (c + k)]
  omega

/-- C5 witness: with counter 5, stale latch 9 and an advance of 3 ticks,
the first call returns 5 and the second returns 8. -/
theorem ticks_protocol_witness :
    5 + 3 < 2 ^ 64 ∧ (ticks ⟨5, 9⟩).1 = 5 :=
  ⟨by decide, (ticks_protocol 5 9 3 (by decide)).2.2.1⟩

/-- The busy-wait loop only returns a polled value that has reached the
deadline. -/
theorem sleepLoop_ge (sleepUntil step : Int) (hstep : 0 < step) :
    ∀ (fuel : Nat) (c : Int), (sleepUntil - c).toNat ≤ fuel →
      sleepUntil ≤ (sleepLoop sleepUntil step hstep c).1 := by
  intro fuel
  induction fuel with
  | zero =>
    intro c hc
    rw [sleepLoop, dif_neg (by omega : ¬c < sleepUntil)]
    show sleepUntil ≤ c
    omega
  | succ f ih =>
    intro c hc
    rw [sleepLoop]
    by_cases hlt : c < sleepUntil
    · rw [dif_pos hlt]
      show sleepUntil ≤ (sleepLoop sleepUntil step hstep (c + step)).1
      exact ih (c + step) (by omega)
    · rw [dif_neg hlt]
      show sleepUntil ≤ c
      omega

/-- C6: for every tick-duration `d ≥ 0`, with the simulated counter
advancing by a fixed positive `step` per loop iteration, `sleepTicks`
returns only once the polled counter has reached the value at the call
plus `d`; for `d = 0` it returns at once with the counter unchanged and
zero loop iterations. -/
theorem sleepTicks_deadline (c0 d step : Int) (hstep : 0 < step) (hd : 0 ≤ d) :
    c0 + d ≤ (sleepTicks c0 d step hstep).1 ∧
    (d = 0 → sleepTicks c0 d step hstep = (c0, 0)) := by
  constructor
  · exact sleepLoop_ge (c0 + d) step hstep ((c0 + d - c0).toNat) c0 (le_refl _)
  · intro h0
    subst h0
    rw [sleepTicks, sleepLoop, dif_neg (by omega : ¬c0 < c0 + 0)]

/-- C6 witness: sleeping 5 ticks from counter 0 with step 1 ends with the
counter at least 5. -/
theorem sleepTicks_deadline_witness :
    ((0 : Int) < 1 ∧ (0 : Int) ≤ 5) ∧ (0 : Int) + 5 ≤ (sleepTicks 0 5 1 Int.one_pos).1 :=
  ⟨⟨by decide, by decide⟩, (sleepTicks_deadline 0 5 1 Int.one_pos (by decide)).1⟩

/-- C10: for every negative tick-duration `d`, the precomputed deadline is
already at or below the counter value, so the busy-wait loop body never
executes: `sleepTicks` returns the unchanged counter after zero loop
iterations. -/
theorem sleepTicks_negative (c0 d step : Int) (hstep : 0 < step) (hd : d < 0) :
    sleepTicks c0 d step hstep = (c0, 0) := by
  rw [sleepTicks, sleepLoop, dif_neg (by omega : ¬c0 < c0 + d)]

/-- C10 witness: sleeping -3 ticks from counter 0 returns immediately with
zero iterations. -/
theorem sleepTicks_negative_witness :
    (-3 : Int) < 0 ∧ sleepTicks 0 (-3) 1 Int.one_pos = (0, 0) :=
  ⟨by decide, sleepTicks_negative 0 (-3) 1 Int.one_pos (by decide)⟩

/-- C8: if `run()` returns, the machine enters the halted state; from the
halted state every number of further steps leaves the machine halted and
emits only wait-for-interrupt instructions (no register writes); the same
holds for the whole trace after `run()` returns. -/
theorem halt_terminal (sbss n k : Nat) :
    (sysStep sbss n MState.running).1 = MState.halted ∧
    sysRun sbss n MState.halted k = (MState.halted, List.replicate k Event.wfi) ∧
    sysRun sbss n MState.running (k + 1) = (MState.halted, List.replicate k Event.wfi) := by
  have hh : ∀ j, sysRun sbss n MState.halted j =
      (MState.halted, List.replicate j Event.wfi) := by
    intro j
    induction j with
    | zero => rfl
    | succ j ih => simp [sysRun, sysStep, ih, List.replicate_succ]
  exact ⟨rfl, hh k, by simp [sysRun, sysStep, hh k]⟩

/-- Length of the `.bss` store trace. -/
theorem bssTrace_length (n : Nat) : ∀ sbss, (bssTrace sbss n).length = n := by
  induction n with
  | zero => intro s; rfl
  | succ n ih => intro s; simp [bssTrace, ih]

/-- Indexing the `.bss` store trace. -/
theorem bssTrace_getElem (n : Nat) : ∀ (sbss k : Nat),
    (bssTrace sbss n)[k]? =
      if k < n then some (Event.memZero (sbss + 4 * k)) else none := by
  induction n with
  | zero => intro s k; simp [bssTrace]
  | succ n ih =>
    intro s k
    cases k with
    | zero => simp [bssTrace]
    | succ k =>
      simp only [bssTrace, List.getElem?_cons_succ, ih (s + 4) k]
      by_cases hk : k < n
      · rw [if_pos hk, if_pos (by omega)]
        congr 2
        omega
      · rw [if_neg hk, if_neg (by omega)]

/-- Indexing the `main` trace: the first 7 events are the watchdog and
clock writes, the next `n` are the `.bss` stores, and the rest is the
timer configuration followed by the call into `run()`. -/
theorem mainTrace_getElem (sbss n i : Nat) :
    (mainTrace sbss n)[i]? =
      if i < 7 then bootWrites[i]?
      else if i < 7 + n then some (Event.memZero (sbss + 4 * (i - 7)))
      else timerSetup[i - 7 - n]? := by
  have hb : bootWrites.length = 7 := rfl
  rw [mainTrace, List.append_assoc, List.getElem?_append, hb]
  by_cases h1 : i < 7
  · rw [if_pos h1, if_pos h1]
  · rw [if_neg h1, if_neg h1, List.getElem?_append, bssTrace_length n sbss,
      bssTrace_getElem n sbss (i - 7)]
    by_cases h2 : i < 7 + n
    · rw [if_pos (by omega : i - 7 < n), if_pos (by omega : i - 7 < n), if_pos h2]
    · rw [if_neg (by omega : ¬i - 7 < n), if_neg h2]

/-- A write to a register that the timer-setup suffix never touches can
only sit inside the seven boot writes: the `.bss` segment holds only word
stores and the suffix is excluded by hypothesis. -/
theorem mainTrace_write_in_boot (sbss n i v : Nat) (r : Reg)
    (hr : ∀ e ∈ timerSetup, writesReg r e = false)
    (h : (mainTrace sbss n)[i]? = some (Event.regWrite r v)) :
    i < 7 ∧ bootWrites[i]? = some (Event.regWrite r v) := by
  rw [mainTrace_getElem] at h
  by_cases h1 : i < 7
  · rw [if_pos h1] at h
    exact ⟨h1, h⟩
  · rw [if_neg h1] at h
    by_cases h2 : i < 7 + n
    · rw [if_pos h2] at h
      simp at h
    · rw [if_neg h2] at h
      have hm := List.getElem?_mem h
      have := hr _ hm
      simp [writesReg] at this

/-- C1 (amended): the RTC watchdog and super watchdog disable writes are
immediately preceded by writes of their magic unlock constants to their
write-protect registers, but the main timer-group watchdog is disabled by
a single configuration write and its write-protect register is never
written. -/
theorem watchdog_unlock_protocol (sbss n : Nat) :
    unlockImmediatelyBefore (mainTrace sbss n) Reg.RTC_WDTWPROTECT
      Reg.RTC_WDTCONFIG0 0x50D83AA1 ∧
    unlockImmediatelyBefore (mainTrace sbss n) Reg.RTC_SWD_WPROTECT
      Reg.RTC_SWD_CONF 0x8F1D312A ∧
    ∀ (i v : Nat),
      (mainTrace sbss n)[i]? ≠ some (Event.regWrite Reg.TIMG0_WDTWPROTECT v) := by
  refine ⟨?_, ?_, ?_⟩
  · intro i v h
    obtain ⟨h7, hb⟩ :=
      mainTrace_write_in_boot sbss n i v Reg.RTC_WDTCONFIG0 (by decide) h
    have hmap : (bootWrites.map (writesReg Reg.RTC_WDTCONFIG0))[i]? = some true := by
      rw [List.getElem?_map, hb]
      simp [writesReg]
    have hpos : ∀ j, j < 7 →
        ((bootWrites.map (writesReg Reg.RTC_WDTCONFIG0))[j]? = some true → j = 2) := by
      decide
    have hi2 : i = 2 := hpos i h7 hmap
    subst hi2
    refine ⟨by omega, ?_⟩
    rw [show (2 : Nat) - 1 = 1 from rfl, mainTrace_getElem,
      if_pos (by omega : (1 : Nat) < 7)]
    decide
  · intro i v h
    obtain ⟨h7, hb⟩ :=
      mainTrace_write_in_boot sbss n i v Reg.RTC_SWD_CONF (by decide) h
    have hmap : (bootWrites.map (writesReg Reg.RTC_SWD_CONF))[i]? = some true := by
      rw [List.getElem?_map, hb]
      simp [writesReg]
    have hpos : ∀ j, j < 7 →
        ((bootWrites.map (writesReg Reg.RTC_SWD_CONF))[j]? = some true → j = 4) := by
      decide
    have hi4 : i = 4 := hpos i h7 hmap
    subst hi4
    refine ⟨by omega, ?_⟩
    rw [show (4 : Nat) - 1 = 3 from rfl, mainTrace_getElem,
      if_pos (by omega : (3 : Nat) < 7)]
    decide
  · intro i v h
    obtain ⟨h7, hb⟩ :=
      mainTrace_write_in_boot sbss n i v Reg.TIMG0_WDTWPROTECT (by decide) h
    have hmap : (bootWrites.map (writesReg Reg.TIMG0_WDTWPROTECT))[i]? = some true := by
      rw [List.getElem?_map, hb]
      simp [writesReg]
    have hpos : ∀ j, j < 7 →
        ((bootWrites.map (writesReg Reg.TIMG0_WDTWPROTECT))[j]? = some true → False) := by
      decide
    exact hpos i h7 hmap

/-- C1 counterexample: in the concrete trace with an empty `.bss` region,
the timer-group watchdog disable write is the very first event, so no
unlock write of any magic value precedes it; the claimed unlock protocol
fails for the main timer-group watchdog. -/
theorem timg0_disable_without_unlock :
    ¬∃ magic, unlockImmediatelyBefore (mainTrace 0 0) Reg.TIMG0_WDTWPROTECT
        Reg.TIMG0_WDTCONFIG0 magic := by
  rintro ⟨magic, h⟩
  have h0 := h 0 0 (by decide)
  exact absurd h0.1 (by decide)

/-- C7: in the trace of `main`, every watchdog-register write occurs
strictly before the timer-enable configuration write, and every `.bss`
zeroing store occurs strictly before the call into `run()`. -/
theorem mainTrace_order (sbss n i j : Nat) (ei ej : Event)
    (hi : (mainTrace sbss n)[i]? = some ei)
    (hj : (mainTrace sbss n)[j]? = some ej)
    (hcase : (isWatchdogWrite ei = true ∧ isTimerEnableWrite ej = true) ∨
             (isMemZero ei = true ∧ ej = Event.callRun)) :
    i < j := by
  rw [mainTrace_getElem] at hi hj
  rcases hcase with ⟨hwd, hte⟩ | ⟨hmz, hcr⟩
  · have hi7 : i < 7 := by
      by_contra hge
      rw [if_neg hge] at hi
      by_cases h2 : i < 7 + n
      · rw [if_pos h2] at hi
        injection hi with hi
        subst hi
        simp [isWatchdogWrite] at hwd
      · rw [if_neg h2] at hi
        have hm := List.getElem?_mem hi
        have hf : ∀ e ∈ timerSetup, isWatchdogWrite e = false := by decide
        rw [hf ei hm] at hwd
        cases hwd
    have hj7 : 7 + n ≤ j := by
      by_contra hlt
      push_neg at hlt
      by_cases h1 : j < 7
      · rw [if_pos h1] at hj
        have hm := List.getElem?_mem hj
        have hf : ∀ e ∈ bootWrites, isTimerEnableWrite e = false := by decide
        rw [hf ej hm] at hte
        cases hte
      · rw [if_neg h1, if_pos (by omega)] at hj
        injection hj with hj
        subst hj
        simp [isTimerEnableWrite] at hte
    omega
  · subst hcr
    have hir : 7 ≤ i ∧ i < 7 + n := by
      constructor
      · by_contra h1
        push_neg at h1
        rw [if_pos h1] at hi
        have hm := List.getElem?_mem hi
        have hf : ∀ e ∈ bootWrites, isMemZero e = false := by decide
        rw [hf ei hm] at hmz
        cases hmz
      · by_contra h2
        push_neg at h2
        rw [if_neg (by omega : ¬i < 7), if_neg (by omega : ¬i < 7 + n)] at hi
        have hm := List.getElem?_mem hi
        have hf : ∀ e ∈ timerSetup, isMemZero e = false := by decide
        rw [hf ei hm] at hmz
        cases hmz
    have hjr : 7 + n ≤ j := by
      by_contra hlt
      push_neg at hlt
      by_cases h1 : j < 7
      · rw [if_pos h1] at hj
        have hm := List.getElem?_mem hj
        have hf : ∀ e ∈ bootWrites, e ≠ Event.callRun := by decide
        exact hf _ hm rfl
      · rw [if_neg h1, if_pos (by omega)] at hj
        simp at hj
    omega

/-- C7 witness: with one `.bss` word, the first watchdog write (index 0)
precedes the timer-enable write (index 8). -/
theorem mainTrace_order_witness :
    (0 : Nat) < 8 ∧
    (mainTrace 0 1)[8]? = some (Event.regWrite Reg.TIMG0_T0CONFIG t0ConfigVal) :=
  ⟨mainTrace_order 0 1 0 8 (Event.regWrite Reg.TIMG0_WDTCONFIG0 0)
      (Event.regWrite Reg.TIMG0_T0CONFIG t0ConfigVal) (by decide) (by decide)
      (Or.inl ⟨by decide, by decide⟩),
   by decide⟩

/-- Clock-register writes never occur in the `.bss` store trace. -/
theorem bssTrace_filter_clock (n : Nat) : ∀ sbss,
    (bssTrace sbss n).filter isClockWrite = [] := by
  induction n with
  | zero => intro s; rfl
  | succ n ih => intro s; simp [bssTrace, isClockWrite, ih]

/-- C9: the clock configuration consists of exactly two register writes in
the whole `main` trace, in order: first the system-clock source select
(PLL), then the CPU period/divider selector with the CPU wait-state mode
force bit set; no other clock register write occurs anywhere in the
trace. -/
theorem clock_config_writes (sbss n : Nat) :
    (mainTrace sbss n).filter isClockWrite =
      [Event.regWrite Reg.SYSTEM_SYSCLK_CONF (1 <<< SYSTEM_SYSCLK_CONF_SOC_CLK_SEL_Pos),
       Event.regWrite Reg.SYSTEM_CPU_PER_CONF cpuPerConfVal] ∧
    cpuPerConfVal &&& SYSTEM_CPU_PER_CONF_REG_CPU_WAIT_MODE_FORCE_ON =
      SYSTEM_CPU_PER_CONF_REG_CPU_WAIT_MODE_FORCE_ON := by
  constructor
  · rw [mainTrace, List.filter_append, List.filter_append, bssTrace_filter_clock n sbss]
    decide
  · decide

end ESP32C3
